import Mathlib

/-!
Verification of the animal-classification service (`src/main.py`).

The service forwards uploaded images to an external inference provider in two
steps (species detection via `classify_animal`, breed classification via
`classify_breed`) and aggregates per-image outcomes into a response with a
`classified` mapping (breed name to ordered list of records) and an
`unclassified` list of empty placeholder objects.

Embedding choices:
* Byte buffers are `List Nat` (one entry per byte, values < 256 not enforced
  since the code performs no arithmetic on them).
* Python strings are Lean `String`s; `str.strip`, `str.lower`, `str.split` and
  the `in` substring test are embedded as executable functions over `List Char`
  (`pyStrip`, `pyLower`, `splitChar`, `occursIn`), matching Python's ASCII
  behaviour on the inputs that occur here.
* Each external `replicate.run` call is modelled by the outcome the external
  world would give it: `Except Unit α` is a successful response or a raised
  exception.  Each image's pipeline makes at most one species call and at most
  one breed call, so an `ImageEnv` carries one species outcome and one breed
  outcome (the latter as a function of the selected model name).
* `confidence` values (floats passed through verbatim, never computed with)
  are modelled as `ℚ`.
* The pydantic response model `AnimalClassificationResponse` is a structure;
  Python's insertion-ordered `dict` for `classified` is an association list
  with unique keys, and the empty placeholder objects `{}` are `Unit`.
-/

/-- Python `str.strip` whitespace predicate (ASCII whitespace). -/
def pyIsSpace (c : Char) : Bool :=
  c = ' ' || c = '\t' || c = '\n' || c = '\r' || c = Char.ofNat 11 || c = Char.ofNat 12

/-- Python `str.strip` on a character list: drop whitespace from both ends. -/
def pyStrip (s : List Char) : List Char :=
  ((s.dropWhile pyIsSpace).reverse.dropWhile pyIsSpace).reverse

/-- Python `str.lower` on one character (ASCII range, which is all the code relies on). -/
def pyLowerChar (c : Char) : Char :=
  if 'A' ≤ c && c ≤ 'Z' then Char.ofNat (c.toNat + 32) else c

/-- Python `str.lower` on a character list. -/
def pyLower (s : List Char) : List Char := s.map pyLowerChar

/-- Embedding of Python `s.strip().lower()` (line 44 of `src/main.py`). -/
def pyStripLower (s : String) : String := String.mk (pyLower (pyStrip s.data))

/-- `leadsWith p s` : `p` is an initial segment of `s`. -/
def leadsWith : List Char → List Char → Bool
  | [], _ => true
  | _ :: _, [] => false
  | a :: p, b :: s => a = b && leadsWith p s

/-- `occursIn p s` : `p` occurs contiguously inside `s` — Python's `p in s`. -/
def occursIn (p : List Char) : List Char → Bool
  | [] => leadsWith p []
  | c :: rest => leadsWith p (c :: rest) || occursIn p rest

/-- Python's substring test `sub in s` on strings. -/
def strContains (s sub : String) : Bool := occursIn sub.data s.data

/-- Python `s.split(sep)` for a one-character separator: all segments, empties kept. -/
def splitChar (sep : Char) : List Char → List (List Char)
  | [] => [[]]
  | c :: rest =>
    if c = sep then [] :: splitChar sep rest
    else
      match splitChar sep rest with
      | h :: t => (c :: h) :: t
      | [] => [[c]]

/-- Base64 alphabet, index 0–63. -/
def b64Char (n : Nat) : Char :=
  "ABCDEFGHIJKLMNOPQRSTUVWXYZabcdefghijklmnopqrstuvwxyz0123456789+/".data.getD n 'A'

/-- Encode one final group of 1–3 bytes into 4 base64 characters (with padding). -/
def b64Group : List Nat → List Char
  | [] => []
  | [a] => [b64Char (a / 4), b64Char (a % 4 * 16), '=', '=']
  | [a, b] => [b64Char (a / 4), b64Char (a % 4 * 16 + b / 16), b64Char (b % 16 * 4), '=']
  | a :: b :: c :: _ =>
    [b64Char (a / 4), b64Char (a % 4 * 16 + b / 16), b64Char (b % 16 * 4 + c / 64),
     b64Char (c % 64)]

/-- Standard base64 of a byte list, as Python's `base64.b64encode` produces. -/
def b64Bytes : List Nat → List Char
  | [] => []
  | a :: b :: c :: rest => b64Group [a, b, c] ++ b64Bytes rest
  | rest => b64Group rest

/-- `base64.b64encode(image_content).decode("utf-8")` as a string. -/
def b64encode (image_content : List Nat) : String := String.mk (b64Bytes image_content)

/-- The embedded-image string built at lines 101–102 / 152–153 of `src/main.py`:
`f"data:image/{file.content_type.split('/')[-1]};base64,{encoded_image}"`. -/
def encodeImage (image_content : List Nat) (content_type : String) : String :=
  "data:image/" ++ String.mk ((splitChar '/' content_type.data).getLastD []) ++
    ";base64," ++ b64encode image_content

/-- One ranked entry of the external breed model's response: a JSON object whose
`label` / `confidence` fields may each be missing (indexing a missing field
raises, which the code catches). -/
structure RankedEntry where
  label : Option String
  confidence : Option ℚ
deriving DecidableEq, Repr

/-- The dictionary `{"breed": ..., "confidence": ...}` returned by `classify_breed`. -/
structure BreedInfo where
  breed : String
  confidence : ℚ
deriving DecidableEq, Repr

/-- One record stored under a breed key of `classified`:
`{"confidence": ..., "breed": ..., "animal_type": ...}`. -/
structure BreedRecord where
  confidence : ℚ
  breed : String
  animal_type : String
deriving DecidableEq, Repr

/-- The `classified` field: Python's insertion-ordered dict from breed name to
list of records, as an association list. -/
abbrev Classified := List (String × List BreedRecord)

/-- The pydantic model `AnimalClassificationResponse`; each placeholder `{}` in
`unclassified` is a `Unit`. -/
structure AnimalClassificationResponse where
  classified : Classified := []
  unclassified : List Unit := []
deriving DecidableEq, Repr

/-- `classify_animal` (lines 33–53): the external call's outcome is given as
`speciesRun`; on success the answer is stripped, lowercased, and collapsed to
`"unclassified"` when empty, `"other"`, or containing an uncertainty marker;
on an exception the handler returns `"unclassified"`. -/
def classify_animal (speciesRun : Except Unit String) : String :=
  match speciesRun with
  | Except.ok output =>
    let result := pyStripLower output
    if result = "" || result = "other" || strContains result "cannot" ||
        strContains result "not sure" || strContains result "unclear" then
      "unclassified"
    else
      result
  | Except.error _ => "unclassified"

/-- The model identifier `classify_breed` selects (lines 63–79): the dog model
name for `"dog"`, the cat model name otherwise. -/
def modelNameFor (animal_type : String) : String :=
  if animal_type = "dog" then "dog-breed-identification" else "cat-breed-classification"

/-- The `try` body of `classify_breed` (lines 61–88): run the selected model,
then `if output and len(output) > 0` take `output[0]['label']` and
`output[0]['confidence']` (a missing field raises a `KeyError`), else `None`. -/
def classify_breed_body (breedRun : String → Except Unit (Option (List RankedEntry)))
    (animal_type : String) : Except Unit (Option BreedInfo) := do
  let output ← breedRun (modelNameFor animal_type)
  match output with
  | some (entry :: _) =>
    match entry.label, entry.confidence with
    | some l, some c => pure (some { breed := l, confidence := c })
    | _, _ => Except.error ()
  | _ => pure none

/-- `classify_breed` (lines 56–91): `None` for species outside dog/cat without
touching the external capability; otherwise the `try` body with any exception
caught and mapped to `None`. -/
def classify_breed (breedRun : String → Except Unit (Option (List RankedEntry)))
    (animal_type : String) : Option BreedInfo :=
  if animal_type ∈ ["dog", "cat"] then
    match classify_breed_body breedRun animal_type with
    | Except.ok r => r
    | Except.error _ => none
  else
    none

/-- The per-image environment: the outcome of `await file.read()`, the upload's
declared `content_type`, and the outcomes of the (at most one) species call and
(at most one) breed call the pipeline would make for this image. -/
structure ImageEnv where
  readResult : Except Unit (List Nat)
  content_type : String
  speciesResp : Except Unit String
  breedResp : String → Except Unit (Option (List RankedEntry))

/-- `predict` (lines 93–136): the single-image endpoint. The `try` covers the
upload read; `classify_animal` / `classify_breed` never raise. On the dog/cat
path with a truthy breed string the response carries one record under one key;
every other path (including the `except` branch) yields one placeholder. -/
def predict (env : ImageEnv) : AnimalClassificationResponse :=
  match env.readResult with
  | Except.error _ => { classified := [], unclassified := [()] }
  | Except.ok image_content =>
    let _base64_image := encodeImage image_content env.content_type
    let animal_type := classify_animal env.speciesResp
    if animal_type ∈ ["dog", "cat"] then
      match classify_breed env.breedResp animal_type with
      | some breed_info =>
        if breed_info.breed ≠ "" then
          { classified := [(breed_info.breed,
              [{ confidence := breed_info.confidence, breed := breed_info.breed,
                 animal_type := animal_type }])],
            unclassified := [] }
        else
          { classified := [], unclassified := [()] }
      | none => { classified := [], unclassified := [()] }
    else
      { classified := [], unclassified := [()] }

/-- Append a record to the list at key `k` of a Python dict, creating the key
at the end if absent (lines 167–180: the `if breed_name in classified_data`
branch appends, the `else` branch creates a fresh one-element list). -/
def dictPush : Classified → String → BreedRecord → Classified
  | [], k, r => [(k, [r])]
  | (k', l) :: rest, k, r =>
    if k' = k then (k', l ++ [r]) :: rest else (k', l) :: dictPush rest k r

/-- Python `d[k]` lookup on the association list (`None` when absent). -/
def dictLookup : Classified → String → Option (List BreedRecord)
  | [], _ => none
  | (k', l) :: rest, k => if k' = k then some l else dictLookup rest k

/-- One iteration of `batch_predict`'s `for file in files` loop
(lines 146–190), transforming the accumulated
`(classified_data, unclassified_images)` state. -/
def step (acc : Classified × List Unit) (env : ImageEnv) : Classified × List Unit :=
  match env.readResult with
  | Except.error _ => (acc.1, acc.2 ++ [()])
  | Except.ok image_content =>
    let _base64_image := encodeImage image_content env.content_type
    let animal_type := classify_animal env.speciesResp
    if animal_type ∈ ["dog", "cat"] then
      match classify_breed env.breedResp animal_type with
      | some breed_info =>
        if breed_info.breed ≠ "" then
          (dictPush acc.1 breed_info.breed
             { confidence := breed_info.confidence, breed := breed_info.breed,
               animal_type := animal_type },
           acc.2)
        else
          (acc.1, acc.2 ++ [()])
      | none => (acc.1, acc.2 ++ [()])
    else
      (acc.1, acc.2 ++ [()])

/-- `batch_predict` (lines 139–194): fold the per-image step sequentially over
the uploaded files, starting from empty accumulators. -/
def batch_predict (envs : List ImageEnv) : AnimalClassificationResponse :=
  let acc := envs.foldl step ([], [])
  { classified := acc.1, unclassified := acc.2 }

/-- Total number of records stored across all breed keys of `classified`. -/
def totalCount (c : Classified) : Nat := (c.map fun p => p.2.length).sum

/-- The record, if any, that one image's pipeline run contributes to
`classified`: derived by reading off the dog/cat branch of the handlers. -/
def recOf (env : ImageEnv) : Option BreedRecord :=
  match env.readResult with
  | Except.error _ => none
  | Except.ok _ =>
    let animal_type := classify_animal env.speciesResp
    if animal_type ∈ ["dog", "cat"] then
      match classify_breed env.breedResp animal_type with
      | some breed_info =>
        if breed_info.breed ≠ "" then
          some { confidence := breed_info.confidence, breed := breed_info.breed,
                 animal_type := animal_type }
        else none
      | none => none
    else none

/-- The effect of one loop iteration on the `classified` accumulator. -/
def stepC (c : Classified) (env : ImageEnv) : Classified :=
  match recOf env with
  | some r => dictPush c r.breed r
  | none => c

/-- The placeholders one loop iteration appends to `unclassified`. -/
def placeholdersOf (env : ImageEnv) : List Unit :=
  match recOf env with
  | some _ => []
  | none => [()]

/-- The ordered list of records for breed `b` contributed by a run of the
batch loop over `envs`. -/
def recsFor (envs : List ImageEnv) (b : String) : List BreedRecord :=
  (envs.filterMap recOf).filter fun r => r.breed = b

/-- The boolean test of line 47 of `src/main.py` on the normalized answer:
`not result or result == "other" or "cannot" in result or "not sure" in result
or "unclear" in result`. -/
def collapsesBool (s : String) : Bool :=
  pyStripLower s = "" || pyStripLower s = "other" || strContains (pyStripLower s) "cannot" ||
    strContains (pyStripLower s) "not sure" || strContains (pyStripLower s) "unclear"

/-- The normalized-answer condition under which `classify_animal` collapses a
successful answer to `"unclassified"`, stated structurally: empty, `"other"`,
or containing one of the uncertainty substrings. -/
def collapsesCond (s : String) : Prop :=
  pyStripLower s = "" ∨ pyStripLower s = "other" ∨
  (∃ l1 l2, (pyStripLower s).data = l1 ++ "cannot".data ++ l2) ∨
  (∃ l1 l2, (pyStripLower s).data = l1 ++ "not sure".data ++ l2) ∨
  (∃ l1 l2, (pyStripLower s).data = l1 ++ "unclear".data ++ l2)

/-- An exception is raised somewhere in the single-image pipeline: the upload
read fails, the external species call fails, or the breed call the pipeline
actually makes (on the dog/cat path, at the selected model) fails. -/
def pipelineRaises (env : ImageEnv) : Prop :=
  env.readResult = Except.error () ∨ env.speciesResp = Except.error () ∨
  (classify_animal env.speciesResp ∈ ["dog", "cat"] ∧
    env.breedResp (modelNameFor (classify_animal env.speciesResp)) = Except.error ())

/-- Sample environment: a dog image whose breed call ranks `"poodle"` first. -/
def sampleDogEnv : ImageEnv :=
  ⟨Except.ok [137, 80], "image/png", Except.ok "dog",
   fun _ => Except.ok (some [{ label := some "poodle", confidence := some (9/10) }])⟩

/-- Sample environment: a second dog image also ranked `"poodle"` first (with a
lower-ranked candidate behind it). -/
def sampleDogEnv2 : ImageEnv :=
  ⟨Except.ok [3, 4], "image/png", Except.ok " DOG ",
   fun _ => Except.ok (some [{ label := some "poodle", confidence := some (3/4) },
                             { label := some "labrador", confidence := some (1/10) }])⟩

/-- Sample environment: classified as a fish, so no breed lookup applies. -/
def sampleFishEnv : ImageEnv :=
  ⟨Except.ok [255, 216], "image/jpeg", Except.ok "fish", fun _ => Except.ok none⟩

/-- Sample environment: the upload read raises. -/
def sampleFailEnv : ImageEnv :=
  ⟨Except.error (), "image/png", Except.ok "dog", fun _ => Except.ok none⟩

/-! ### Helper lemmas: substring search, splitting, dictionaries -/

theorem leadsWith_iff (p s : List Char) : leadsWith p s = true ↔ ∃ t, s = p ++ t := by
  induction p generalizing s with
  | nil => simp [leadsWith]
  | cons a p ih =>
    cases s with
    | nil => simp [leadsWith]
    | cons b s =>
      simp only [leadsWith, Bool.and_eq_true, decide_eq_true_eq, ih, List.cons_append,
        List.cons.injEq]
      constructor
      · rintro ⟨rfl, t, rfl⟩; exact ⟨t, rfl, rfl⟩
      · rintro ⟨t, rfl, rfl⟩; exact ⟨rfl, t, rfl⟩

theorem occursIn_iff (p s : List Char) : occursIn p s = true ↔ ∃ l1 l2, s = l1 ++ p ++ l2 := by
  induction s with
  | nil =>
    simp only [occursIn, leadsWith_iff]
    constructor
    · rintro ⟨t, ht⟩
      exact ⟨[], t, by simpa using ht⟩
    · rintro ⟨l1, l2, h⟩
      have h2 := List.append_eq_nil.mp h.symm
      have h3 := List.append_eq_nil.mp h2.1
      exact ⟨[], by simp [h3.2]⟩
  | cons c s ih =>
    simp only [occursIn, Bool.or_eq_true, leadsWith_iff, ih]
    constructor
    · rintro (⟨t, ht⟩ | ⟨l1, l2, rfl⟩)
      · exact ⟨[], t, by simpa using ht⟩
      · exact ⟨c :: l1, l2, by simp⟩
    · rintro ⟨l1, l2, h⟩
      cases l1 with
      | nil => exact Or.inl ⟨l2, by simpa using h⟩
      | cons d l1 =>
        rcases List.cons.injEq .. ▸ h with ⟨rfl, hs⟩
        exact Or.inr ⟨l1, l2, hs⟩

theorem splitChar_ne_nil (sep : Char) (s : List Char) : splitChar sep s ≠ [] := by
  cases s with
  | nil => simp [splitChar]
  | cons c rest =>
    simp only [splitChar]
    split
    · simp
    · split <;> simp_all

theorem splitChar_no_sep (sep : Char) (s : List Char) (h : sep ∉ s) :
    splitChar sep s = [s] := by
  induction s with
  | nil => rfl
  | cons c rest ih =>
    simp only [List.mem_cons, not_or] at h
    have hcs : ¬ c = sep := fun hc => h.1 hc.symm
    simp only [splitChar, ih h.2, if_neg hcs]

theorem splitChar_sep_length (sep : Char) (l1 l2 : List Char) :
    2 ≤ (splitChar sep (l1 ++ sep :: l2)).length := by
  induction l1 with
  | nil =>
    simp only [List.nil_append, splitChar, if_pos rfl, List.length_cons]
    have := splitChar_ne_nil sep l2
    cases h : splitChar sep l2 with
    | nil => exact absurd h this
    | cons a t => simp
  | cons c l1 ih =>
    simp only [List.cons_append, splitChar]
    split
    · have := splitChar_ne_nil sep (l1 ++ sep :: l2)
      cases h : splitChar sep (l1 ++ sep :: l2) with
      | nil => exact absurd h this
      | cons a t => simp
    · cases h : splitChar sep (l1 ++ sep :: l2) with
      | nil => exact absurd h (splitChar_ne_nil sep _)
      | cons a t => rw [h] at ih; simpa using ih

theorem splitChar_getLastD (sep : Char) (l1 l2 : List Char) (h : sep ∉ l2) :
    (splitChar sep (l1 ++ sep :: l2)).getLastD [] = l2 := by
  induction l1 with
  | nil =>
    simp only [List.nil_append, splitChar, if_pos rfl, splitChar_no_sep sep l2 h]
    rfl
  | cons c l1 ih =>
    simp only [List.cons_append, splitChar]
    split
    · cases hs : splitChar sep (l1 ++ sep :: l2) with
      | nil => exact absurd hs (splitChar_ne_nil sep _)
      | cons a t => rw [hs] at ih; simpa [List.getLastD_cons] using ih
    · cases hs : splitChar sep (l1 ++ sep :: l2) with
      | nil => exact absurd hs (splitChar_ne_nil sep _)
      | cons a t =>
        have hlen := splitChar_sep_length sep l1 l2
        rw [hs] at ih hlen
        cases t with
        | nil => simp at hlen
        | cons b t => simpa [List.getLastD_cons] using ih

theorem totalCount_dictPush (d : Classified) (k : String) (r : BreedRecord) :
    totalCount (dictPush d k r) = totalCount d + 1 := by
  induction d with
  | nil => rfl
  | cons p rest ih =>
    obtain ⟨k', l⟩ := p
    simp only [dictPush]
    split
    · simp [totalCount, Nat.add_assoc, Nat.add_comm, Nat.add_left_comm]
    · simp only [totalCount, List.map_cons, List.sum_cons] at ih ⊢
      omega

theorem dictLookup_dictPush_self (d : Classified) (k : String) (r : BreedRecord) :
    dictLookup (dictPush d k r) k = some ((dictLookup d k).getD [] ++ [r]) := by
  induction d with
  | nil => simp [dictPush, dictLookup]
  | cons p rest ih =>
    obtain ⟨k', l⟩ := p
    simp only [dictPush]
    split
    · next h => simp [dictLookup, h]
    · next h => simp [dictLookup, h, ih]

theorem dictLookup_dictPush_other (d : Classified) (k k' : String) (r : BreedRecord)
    (h : k' ≠ k) : dictLookup (dictPush d k r) k' = dictLookup d k' := by
  induction d with
  | nil => simp [dictPush, dictLookup, Ne.symm h]
  | cons p rest ih =>
    obtain ⟨k'', l⟩ := p
    simp only [dictPush]
    split
    · next he =>
      subst he
      simp [dictLookup, Ne.symm h]
    · simp only [dictLookup, ih]

theorem step_eq (c : Classified) (u : List Unit) (env : ImageEnv) :
    step (c, u) env = (stepC c env, u ++ placeholdersOf env) := by
  obtain ⟨rr, ct, sp, br⟩ := env
  cases rr with
  | error e => simp [step, stepC, placeholdersOf, recOf]
  | ok content =>
    simp only [step, stepC, placeholdersOf, recOf]
    split
    · cases hcb : classify_breed br (classify_animal sp) with
      | none => simp
      | some bi =>
        by_cases hb : bi.breed = ""
        · simp [hb]
        · simp [hb]
    · simp

theorem foldl_step_split (l : List ImageEnv) (c : Classified) (u : List Unit) :
    l.foldl step (c, u) = (l.foldl stepC c, u ++ (l.map placeholdersOf).flatten) := by
  induction l generalizing c u with
  | nil => simp
  | cons e l ih =>
    simp only [List.foldl_cons, step_eq, ih, List.map_cons, List.flatten_cons,
      List.append_assoc]

theorem totalCount_stepC_add (c : Classified) (env : ImageEnv) :
    totalCount (stepC c env) + (placeholdersOf env).length
      = totalCount c + 1 := by
  unfold stepC placeholdersOf
  cases recOf env with
  | none => simp
  | some r => simp [totalCount_dictPush]

theorem totalCount_foldl (l : List ImageEnv) (c : Classified) :
    totalCount (l.foldl stepC c) + ((l.map placeholdersOf).flatten).length
      = totalCount c + l.length := by
  induction l generalizing c with
  | nil => simp
  | cons e l ih =>
    have hstep := totalCount_stepC_add c e
    simp only [List.foldl_cons, List.map_cons, List.flatten_cons, List.length_append,
      List.length_cons]
    have := ih (stepC c e)
    omega

theorem dictLookup_foldl_stepC (l : List ImageEnv) (c : Classified) (b : String) :
    dictLookup (l.foldl stepC c) b =
      match dictLookup c b with
      | some old => some (old ++ recsFor l b)
      | none => if recsFor l b = [] then none else some (recsFor l b) := by
  induction l generalizing c with
  | nil =>
    cases h : dictLookup c b <;> simp [recsFor, h]
  | cons e l ih =>
    simp only [List.foldl_cons]
    cases hre : recOf e with
    | none =>
      have hsc : stepC c e = c := by simp [stepC, hre]
      have hrf : recsFor (e :: l) b = recsFor l b := by
        simp [recsFor, List.filterMap_cons, hre]
      rw [hsc, hrf, ih]
    | some r =>
      have hsc : stepC c e = dictPush c r.breed r := by simp [stepC, hre]
      by_cases hb : r.breed = b
      · subst hb
        have hrf : recsFor (e :: l) r.breed = r :: recsFor l r.breed := by
          simp [recsFor, List.filterMap_cons, hre, List.filter_cons]
        rw [hsc, hrf, ih, dictLookup_dictPush_self]
        cases h : dictLookup c r.breed with
        | none => simp
        | some old => simp
      · have hrf : recsFor (e :: l) b = recsFor l b := by
          simp [recsFor, List.filterMap_cons, hre, List.filter_cons, hb]
        rw [hsc, hrf, ih, dictLookup_dictPush_other _ _ _ _ (fun hc => hb hc.symm)]

theorem collapsesCond_iff (s : String) : collapsesCond s ↔ collapsesBool s = true := by
  simp only [collapsesCond, collapsesBool, strContains, occursIn_iff, Bool.or_eq_true,
    decide_eq_true_eq, or_assoc]

theorem classify_animal_ok (s : String) :
    classify_animal (Except.ok s)
      = if collapsesBool s then "unclassified" else pyStripLower s := rfl

theorem predict_eq (env : ImageEnv) :
    predict env = match recOf env with
      | some r => { classified := [(r.breed, [r])], unclassified := [] }
      | none => { classified := [], unclassified := [()] } := by
  obtain ⟨rr, ct, sp, br⟩ := env
  cases rr with
  | error e => simp [predict, recOf]
  | ok content =>
    simp only [predict, recOf]
    split
    · cases hcb : classify_breed br (classify_animal sp) with
      | none => simp
      | some bi =>
        by_cases hb : bi.breed = ""
        · simp [hb]
        · simp [hb]
    · simp

/-! ### Claim theorems -/

/-- Claim C1: every input image contributes exactly one entry to the result.
Each batch-loop iteration grows the total record count across `classified`
plus the `unclassified` length by exactly one; consequently for `batch_predict`
that total equals the number of input images, and for the single-image
`predict` it equals one. -/
theorem C1_each_image_exactly_one_entry :
    (∀ (acc : Classified × List Unit) (env : ImageEnv),
      totalCount (step acc env).1 + (step acc env).2.length
        = totalCount acc.1 + acc.2.length + 1) ∧
    (∀ envs : List ImageEnv,
      totalCount (batch_predict envs).classified
        + (batch_predict envs).unclassified.length = envs.length) ∧
    (∀ env : ImageEnv,
      totalCount (predict env).classified + (predict env).unclassified.length = 1) := by
  refine ⟨?_, ?_, ?_⟩
  · intro acc env
    obtain ⟨c, u⟩ := acc
    rw [step_eq]
    have h := totalCount_stepC_add c env
    simp only [List.length_append]
    omega
  · intro envs
    unfold batch_predict
    simp only [foldl_step_split]
    have h := totalCount_foldl envs []
    simpa [totalCount] using h
  · intro env
    rw [predict_eq]
    cases recOf env with
    | some r => simp [totalCount]
    | none => simp [totalCount]

/-- Claim C2, counterexample: on the external answer `"unclassified"` the code
returns `"unclassified"` (the normalized answer passed through verbatim) even
though the normalized answer is not empty, not `"other"`, and contains none of
the uncertainty substrings — so "returns unclassified if and only if the
condition holds" is false at this input. -/
theorem C2_counterexample_verbatim :
    ¬ ((classify_animal (Except.ok "unclassified") = "unclassified")
        ↔ collapsesCond "unclassified") := by
  intro h
  have hc := h.mp (by decide)
  have hb := (collapsesCond_iff "unclassified").mp hc
  have hf : collapsesBool "unclassified" = false := by decide
  rw [hf] at hb
  exact Bool.false_ne_true hb

/-- Claim C2, amended: `classify_animal` trims and lowercases the answer, then
returns `"unclassified"` IF the normalized answer is empty, equals `"other"`,
or contains one of the substrings `"cannot"`, `"not sure"`, `"unclear"`;
otherwise it returns the normalized answer verbatim with no validation against
the closed species set (so the verbatim answer may itself be `"unclassified"`,
which is why the "only if" direction of the original claim fails).  The spec's
concrete examples hold: `"Dog"`, `" dog "`, `"DOG"` map to `"dog"`, and
`"not sure"`, `""`, `"other"`, `"I cannot tell"` map to `"unclassified"`. -/
theorem C2_normalization_amended :
    (∀ s : String,
      (collapsesCond s → classify_animal (Except.ok s) = "unclassified") ∧
      (¬ collapsesCond s → classify_animal (Except.ok s) = pyStripLower s)) ∧
    classify_animal (Except.ok "Dog") = "dog" ∧
    classify_animal (Except.ok " dog ") = "dog" ∧
    classify_animal (Except.ok "DOG") = "dog" ∧
    classify_animal (Except.ok "not sure") = "unclassified" ∧
    classify_animal (Except.ok "") = "unclassified" ∧
    classify_animal (Except.ok "other") = "unclassified" ∧
    classify_animal (Except.ok "I cannot tell") = "unclassified" := by
  refine ⟨fun s => ⟨fun hc => ?_, fun hc => ?_⟩,
    by decide, by decide, by decide, by decide, by decide, by decide, by decide⟩
  · have hb := (collapsesCond_iff s).mp hc
    simp [classify_animal_ok, hb]
  · have hb : collapsesBool s = false := by
      cases hbb : collapsesBool s
      · rfl
      · exact absurd ((collapsesCond_iff s).mpr hbb) hc
    simp [classify_animal_ok, hb]

/-- Witness for the amended claim C2: the out-of-set answer `"elephant"` does
not meet the collapse condition and is passed through verbatim. -/
theorem C2_normalization_amended_witness :
    ¬ collapsesCond "elephant" ∧ classify_animal (Except.ok "elephant") = "elephant" := by
  have hnc : ¬ collapsesCond "elephant" := by
    rw [collapsesCond_iff]
    decide
  refine ⟨hnc, ?_⟩
  have h := (C2_normalization_amended.1 "elephant").2 hnc
  rw [h]
  decide

/-- Claim C3: any exception raised in the single-image pipeline — the upload
read, the external species call, or the breed call the pipeline actually makes
— never propagates: `predict` still returns a normal result, with empty
`classified` and exactly one empty placeholder in `unclassified`. -/
theorem C3_exception_swallowed :
    ∀ env : ImageEnv, pipelineRaises env →
      predict env = { classified := [], unclassified := [()] } := by
  intro env h
  rw [predict_eq]
  have hnone : recOf env = none := by
    rcases h with h | h | ⟨hmem, hbr⟩
    · simp [recOf, h]
    · have hs : classify_animal env.speciesResp = "unclassified" := by rw [h]; rfl
      unfold recOf
      cases hr : env.readResult <;> simp [hs]
    · have hcb : classify_breed env.breedResp (classify_animal env.speciesResp) = none := by
        unfold classify_breed classify_breed_body
        rw [if_pos hmem, hbr]
        rfl
      unfold recOf
      cases hr : env.readResult with
      | error e => simp
      | ok content => simp [hmem, hcb]
  rw [hnone]

/-- Witness for claim C3: a concrete request whose upload read raises is
answered with the empty-`classified`, one-placeholder result. -/
theorem C3_exception_swallowed_witness :
    pipelineRaises sampleFailEnv ∧
    predict sampleFailEnv = { classified := [], unclassified := [()] } :=
  ⟨Or.inl rfl, C3_exception_swallowed sampleFailEnv (Or.inl rfl)⟩

/-- Claim C4: for a species label outside {"dog", "cat"}, `classify_breed`
returns `None` for every possible behaviour of the external breed capability
(it is never consulted), and `predict` then yields the empty-`classified`,
one-placeholder result regardless of the breed oracle. -/
theorem C4_non_dog_cat_short_circuit :
    (∀ (breedRun : String → Except Unit (Option (List RankedEntry))) (animal_type : String),
      animal_type ∉ (["dog", "cat"] : List String) →
      classify_breed breedRun animal_type = none) ∧
    (∀ env : ImageEnv,
      classify_animal env.speciesResp ∉ (["dog", "cat"] : List String) →
      predict env = { classified := [], unclassified := [()] }) := by
  constructor
  · intro breedRun animal_type h
    simp [classify_breed, h]
  · intro env h
    rw [predict_eq]
    have hnone : recOf env = none := by
      unfold recOf
      cases hr : env.readResult <;> simp [h]
    rw [hnone]

/-- Witness for claim C4: the label `"bird"` short-circuits `classify_breed`
even when the breed oracle would answer, and a bird image ends up as one
placeholder in `unclassified`. -/
theorem C4_non_dog_cat_short_circuit_witness :
    "bird" ∉ (["dog", "cat"] : List String) ∧
    classify_breed
      (fun _ => Except.ok (some [{ label := some "husky", confidence := some 1 }]))
      "bird" = none ∧
    predict sampleFishEnv = { classified := [], unclassified := [()] } := by
  have h : "bird" ∉ (["dog", "cat"] : List String) := by decide
  exact ⟨h, C4_non_dog_cat_short_circuit.1 _ "bird" h,
    C4_non_dog_cat_short_circuit.2 sampleFishEnv (by decide)⟩

/-- Claim C5: for species `"dog"` or `"cat"`, `classify_breed` takes element 0
of a non-empty ranked response and builds its result from that element's
`label` and `confidence` fields; an empty or null response, a failed call, or
a missing field yields `None`; and when `classify_breed` yields `None` on the
dog/cat path the caller answers with one empty placeholder in `unclassified`. -/
theorem C5_top_ranked_extraction :
    (∀ (breedRun : String → Except Unit (Option (List RankedEntry)))
        (animal_type lab : String) (conf : ℚ) (rest : List RankedEntry),
      animal_type ∈ (["dog", "cat"] : List String) →
      breedRun (modelNameFor animal_type)
        = Except.ok (some ({ label := some lab, confidence := some conf } :: rest)) →
      classify_breed breedRun animal_type = some { breed := lab, confidence := conf }) ∧
    (∀ (breedRun : String → Except Unit (Option (List RankedEntry))) (animal_type : String),
      animal_type ∈ (["dog", "cat"] : List String) →
      (breedRun (modelNameFor animal_type) = Except.ok none ∨
       breedRun (modelNameFor animal_type) = Except.ok (some []) ∨
       breedRun (modelNameFor animal_type) = Except.error () ∨
       (∃ (entry : RankedEntry) (rest : List RankedEntry),
         breedRun (modelNameFor animal_type) = Except.ok (some (entry :: rest)) ∧
         (entry.label = none ∨ entry.confidence = none))) →
      classify_breed breedRun animal_type = none) ∧
    (∀ env : ImageEnv,
      classify_animal env.speciesResp ∈ (["dog", "cat"] : List String) →
      classify_breed env.breedResp (classify_animal env.speciesResp) = none →
      predict env = { classified := [], unclassified := [()] }) := by
  refine ⟨?_, ?_, ?_⟩
  · intro breedRun animal_type lab conf rest hmem hresp
    unfold classify_breed classify_breed_body
    rw [if_pos hmem, hresp]
    rfl
  · intro breedRun animal_type hmem hfail
    unfold classify_breed classify_breed_body
    rw [if_pos hmem]
    rcases hfail with h | h | h | ⟨entry, rest, h, hf⟩
    · rw [h]; rfl
    · rw [h]; rfl
    · rw [h]; rfl
    · obtain ⟨lab, conf⟩ := entry
      rcases hf with hf | hf
      · have hl : lab = none := hf
        subst hl
        rw [h]; rfl
      · have hc : conf = none := hf
        subst hc
        rw [h]
        cases lab <;> rfl
  · intro env hmem hcb
    rw [predict_eq]
    have hnone : recOf env = none := by
      unfold recOf
      cases hr : env.readResult with
      | error e => simp
      | ok content => simp [hmem, hcb]
    rw [hnone]

/-- Witness for claim C5: a concrete dog whose ranked response names
`"poodle"` at element 0 produces that record, and a cat whose ranked response
is the empty list produces `None`. -/
theorem C5_top_ranked_extraction_witness :
    classify_breed
      (fun _ => Except.ok (some [{ label := some "poodle", confidence := some (1/2) }]))
      "dog" = some { breed := "poodle", confidence := 1/2 } ∧
    classify_breed (fun _ => Except.ok (some [])) "cat" = none :=
  ⟨C5_top_ranked_extraction.1 _ "dog" "poodle" (1/2) [] (by decide) rfl,
   C5_top_ranked_extraction.2.1 _ "cat" (by decide) (Or.inr (Or.inl rfl))⟩

/-- Claim C6: when the external species call fails (raises), `classify_animal`
returns the label `"unclassified"` instead of raising to its caller. -/
theorem C6_species_failure_returns_unclassified :
    ∀ e : Unit, classify_animal (Except.error e) = "unclassified" := fun _ => rfl

/-- Claim C7: `batch_predict` folds the per-image step sequentially, and a
failure while processing one image does not abort the rest: with the failed
image removed, `classified` is unchanged, and the failed image's only
contribution is one extra placeholder in `unclassified`. -/
theorem C7_sequential_failure_isolation :
    ∀ (pre post : List ImageEnv) (e : ImageEnv), e.readResult = Except.error () →
      (batch_predict (pre ++ e :: post)).classified
        = (batch_predict (pre ++ post)).classified ∧
      (batch_predict (pre ++ e :: post)).unclassified.length
        = (batch_predict (pre ++ post)).unclassified.length + 1 := by
  intro pre post e he
  have hre : recOf e = none := by simp [recOf, he]
  constructor
  · unfold batch_predict
    simp only [foldl_step_split]
    rw [List.foldl_append, List.foldl_append, List.foldl_cons]
    have h : stepC (pre.foldl stepC []) e = pre.foldl stepC [] := by simp [stepC, hre]
    rw [h]
  · unfold batch_predict
    simp only [foldl_step_split]
    have hp : placeholdersOf e = [()] := by simp [placeholdersOf, hre]
    simp only [List.map_append, List.map_cons, List.flatten_append, List.flatten_cons, hp,
      List.nil_append, List.length_append, List.length_cons, List.length_nil]
    omega

/-- Witness for claim C7: dropping a concrete failing image from a batch of
three leaves `classified` unchanged and shortens `unclassified` by one. -/
theorem C7_sequential_failure_isolation_witness :
    sampleFailEnv.readResult = Except.error () ∧
    (batch_predict ([sampleDogEnv] ++ sampleFailEnv :: [sampleFishEnv])).classified
      = (batch_predict ([sampleDogEnv] ++ [sampleFishEnv])).classified ∧
    (batch_predict ([sampleDogEnv] ++ sampleFailEnv :: [sampleFishEnv])).unclassified.length
      = (batch_predict ([sampleDogEnv] ++ [sampleFishEnv])).unclassified.length + 1 :=
  ⟨rfl, C7_sequential_failure_isolation [sampleDogEnv] [sampleFishEnv] sampleFailEnv rfl⟩

/-- Claim C8: in `batch_predict`, the list stored at key `b` of `classified`
is exactly the records of the images classified to breed `b`, in submission
order (the key existing only when at least one such record exists); in
particular two images independently classified to the same breed yield a
two-element list in submission order. -/
theorem C8_breed_bucket_order :
    (∀ (envs : List ImageEnv) (b : String),
      dictLookup (batch_predict envs).classified b
        = if recsFor envs b = [] then none else some (recsFor envs b)) ∧
    (∀ (e1 e2 : ImageEnv) (r1 r2 : BreedRecord),
      recOf e1 = some r1 → recOf e2 = some r2 → r1.breed = r2.breed →
      dictLookup (batch_predict [e1, e2]).classified r1.breed = some [r1, r2]) := by
  have hgen : ∀ (envs : List ImageEnv) (b : String),
      dictLookup (batch_predict envs).classified b
        = if recsFor envs b = [] then none else some (recsFor envs b) := by
    intro envs b
    unfold batch_predict
    simp only [foldl_step_split]
    rw [dictLookup_foldl_stepC]
    rfl
  refine ⟨hgen, ?_⟩
  intro e1 e2 r1 r2 h1 h2 hb
  rw [hgen]
  have hr : recsFor [e1, e2] r1.breed = [r1, r2] := by
    simp [recsFor, List.filterMap_cons, h1, h2, List.filter_cons, hb.symm]
  rw [hr]
  simp

/-- Witness for claim C8: two concrete dog images both ranked `"poodle"` give
a two-element `classified["poodle"]` in submission order. -/
theorem C8_breed_bucket_order_witness :
    recOf sampleDogEnv
      = some { confidence := 9/10, breed := "poodle", animal_type := "dog" } ∧
    recOf sampleDogEnv2
      = some { confidence := 3/4, breed := "poodle", animal_type := "dog" } ∧
    dictLookup (batch_predict [sampleDogEnv, sampleDogEnv2]).classified "poodle"
      = some [{ confidence := 9/10, breed := "poodle", animal_type := "dog" },
              { confidence := 3/4, breed := "poodle", animal_type := "dog" }] := by
  refine ⟨rfl, rfl, ?_⟩
  exact C8_breed_bucket_order.2 sampleDogEnv sampleDogEnv2
    { confidence := 9/10, breed := "poodle", animal_type := "dog" }
    { confidence := 3/4, breed := "poodle", animal_type := "dog" }
    rfl rfl rfl

/-- Claim C9: for any byte buffer and any content type of the form
`image/<subtype>` (a subtype containing no slash), the encoding step produces
exactly `"data:image/" ++ subtype ++ ";base64," ++ base64(bytes)`, with no
validation of the byte content (the buffer is universally quantified, the
empty buffer included). -/
theorem C9_encoding_shape :
    ∀ (bytes : List Nat) (sub : String), '/' ∉ sub.data →
      encodeImage bytes ("image/" ++ sub)
        = "data:image/" ++ sub ++ ";base64," ++ b64encode bytes := by
  intro bytes sub h
  have hd : ("image/" ++ sub).data = "image".data ++ '/' :: sub.data := by
    rw [String.data_append]
    rfl
  have hsplit : (splitChar '/' ("image/" ++ sub).data).getLastD [] = sub.data := by
    rw [hd]
    exact splitChar_getLastD '/' "image".data sub.data h
  unfold encodeImage
  rw [hsplit]

/-- Witness for claim C9: the bytes of `"Man"` with content type `"image/png"`
encode to the RFC 4648 test vector `TWFu` inside the data-URL shape. -/
theorem C9_encoding_shape_witness :
    '/' ∉ "png".data ∧
    encodeImage [77, 97, 110] ("image/" ++ "png")
      = "data:image/" ++ "png" ++ ";base64," ++ b64encode [77, 97, 110] ∧
    b64encode [77, 97, 110] = "TWFu" :=
  ⟨by decide, C9_encoding_shape [77, 97, 110] "png" (by decide), by decide⟩

/-- Claim C10: the single-image endpoint's result always holds exactly one
image outcome: either `classified` has exactly one key mapping to a
one-record list with `unclassified` empty, or `classified` is empty with
exactly one placeholder in `unclassified`. -/
theorem C10_single_image_shape :
    ∀ env : ImageEnv,
      (∃ (b : String) (r : BreedRecord),
        predict env = { classified := [(b, [r])], unclassified := [] }) ∨
      predict env = { classified := [], unclassified := [()] } := by
  intro env
  rw [predict_eq]
  cases recOf env with
  | some r => exact Or.inl ⟨r.breed, r, rfl⟩
  | none => exact Or.inr rfl
